import Mathlib

/-!
Verification of the Word Explanation Service of the Arabic poetry backend
(`backend/server.py`), via a shallow embedding of its pure logic: prompt
assembly, the single capability call, success/error normalization, and the
Mongo (de)serialization helpers.
-/

namespace PoetryApp

/-- Model of `WordExplanationRequest` (`server.py` lines 61-65). -/
structure WordExplanationRequest where
  word : String
  context : String
  poem_title : Option String := none
  poet_name : Option String := none
deriving DecidableEq, Repr

/-- Model of `WordExplanation` (`server.py` lines 56-59). -/
structure WordExplanation where
  word : String
  context : String
  explanation : String
deriving DecidableEq, Repr

/-- FastAPI `HTTPException` as raised by `explain_word` (`server.py` line 174). -/
structure HTTPException where
  status_code : Nat
  detail : String
deriving DecidableEq, Repr

/-- The fixed `session_id` passed to `LlmChat` in `get_ai_chat` (`server.py` line 32). -/
def session_id : String := "poetry_explanation"

/-- The fixed `system_message` passed to `LlmChat` in `get_ai_chat` (`server.py` line 33). -/
def system_message : String :=
  "أنت خبير في الشعر العربي واللغة العربية. مهمتك شرح معاني الكلمات العربية والتراكيب الشعرية بطريقة واضحة ومفصلة. اشرح المعنى اللغوي والسياق الشعري والبلاغة إن وجدت."

/-- The `context_info` string built in `explain_word` (`server.py` lines 146-151).
Python truthiness on the optional fields: a line is added only when the field
is not `None` and not the empty string. -/
def context_info (r : WordExplanationRequest) : String :=
  "الكلمة: " ++ r.word ++ "\n"
  ++ ("السياق: " ++ r.context ++ "\n")
  ++ (match r.poem_title with
      | some t => if t ≠ "" then "القصيدة: " ++ t ++ "\n" else ""
      | none => "")
  ++ (match r.poet_name with
      | some p => if p ≠ "" then "الشاعر: " ++ p ++ "\n" else ""
      | none => "")

/-- The fixed text of the triple-quoted f-string before `{context_info}`
(`server.py` line 153-154): a newline then the 8-space indent. -/
def promptHeader : String := "\n        "

/-- The fixed text of the triple-quoted f-string after `{context_info}`
(`server.py` lines 155-162), whitespace reproduced exactly. -/
def promptTail : String :=
  "\n        \n        يرجى شرح معنى الكلمة المحددة في سياقها الشعري. اذكر:\n        1. المعنى اللغوي للكلمة\n        2. المعنى في السياق الشعري\n        3. أي إشارات بلاغية أو أدبية إن وجدت\n        \n        اجعل الشرح مختصر وواضح (لا يتجاوز 150 كلمة).\n        "

/-- The full user prompt assembled by `explain_word` (`server.py` lines 153-162). -/
def prompt (r : WordExplanationRequest) : String :=
  promptHeader ++ context_info r ++ promptTail

/-- One invocation of the Text Generation Capability, as addressed by the code:
the `LlmChat` construction arguments plus the user prompt sent to it. -/
structure GenCall where
  session_id : String
  system_message : String
  prompt : String
deriving DecidableEq, Repr

/-- The single capability call `explain_word` makes for a request: the chat from
`get_ai_chat` (fixed session id and system message) with the assembled prompt. -/
def mkCall (r : WordExplanationRequest) : GenCall :=
  ⟨session_id, system_message, prompt r⟩

/-- Shallow embedding of `explain_word` (`server.py` lines 143-174). The external
capability `gen` either returns generated text or fails with an error message
(`str(e)` of the raised exception). The second component is the list of
capability calls made, in order. On success the handler echoes `word` and
`context` from the request and wraps the response; on any capability failure it
raises `HTTPException(500, "خطأ في شرح الكلمة: " + str(e))`. -/
def explain_word (gen : GenCall → Except String String)
    (r : WordExplanationRequest) :
    Except HTTPException WordExplanation × List GenCall :=
  let c := mkCall r
  match gen c with
  | .ok response =>
      (.ok { word := r.word, context := r.context, explanation := response }, [c])
  | .error e =>
      (.error { status_code := 500, detail := "خطأ في شرح الكلمة: " ++ e }, [c])

/-- A stub capability echoing back `"STUB:" + prompt`, as in the spec's example
scenario. -/
def stubGen : GenCall → Except String String :=
  fun c => .ok ("STUB:" ++ c.prompt)

/-- The example request from the spec's scenario and the repository's test
`backend_test.py` (`test_word_explanation`, first case). -/
def reqEx : WordExplanationRequest :=
  { word := "العزم"
  , context := "على قدر أهل العزم تأتي العزائم"
  , poem_title := some "على قدر أهل العزم"
  , poet_name := some "أبو الطيب المتنبي" }

/-- A request with an empty `word`, used to probe the (absent) validation path
of `explain_word`. -/
def reqEmptyWord : WordExplanationRequest :=
  { word := "", context := "على قدر أهل العزم تأتي العزائم" }

/-- Boolean test that `pat` is a prefix of `l`, by structural recursion. -/
def charsPrefix : List Char → List Char → Bool
  | [], _ => true
  | _ :: _, [] => false
  | a :: as, b :: bs => a == b && charsPrefix as bs

/-- Boolean test that `pat` occurs as a contiguous sublist of `hay`. -/
def charsContain (hay pat : List Char) : Bool :=
  match hay with
  | [] => pat.isEmpty
  | _ :: rest => charsPrefix pat hay || charsContain rest pat

/-- Test that `pat` occurs as a literal substring of `s`. -/
def strContains (s pat : String) : Bool :=
  charsContain s.data pat.data

/-- Test that `s` starts with the literal string `pat`. -/
def strStarts (s pat : String) : Bool :=
  charsPrefix pat.data s.data

/-- Test that `s` ends with the literal string `pat` (Python's `str.endswith`), by
structural recursion so it evaluates in the kernel. -/
def strEnds (s pat : String) : Bool :=
  charsPrefix pat.data.reverse s.data.reverse

/-- The poem-title portion of the prompt's line list: a single labeled line when
a (non-empty) title was provided, nothing at all otherwise. -/
def titleLines (r : WordExplanationRequest) : List String :=
  match r.poem_title with
  | some t => if t ≠ "" then ["القصيدة: " ++ t] else []
  | none => []

/-- The poet-name portion of the prompt's line list: a single labeled line when
a (non-empty) poet name was provided, nothing at all otherwise. -/
def poetLines (r : WordExplanationRequest) : List String :=
  match r.poet_name with
  | some p => if p ≠ "" then ["الشاعر: " ++ p] else []
  | none => []

/-- The labeled lines of the user prompt as the spec describes them: word line,
context line, then — only when provided — poem-title line and poet-name line,
in that fixed order. Stated independently of `context_info` so the
prompt-structure claim compares two formulations. -/
def promptLines (r : WordExplanationRequest) : List String :=
  ["الكلمة: " ++ r.word, "السياق: " ++ r.context]
  ++ titleLines r ++ poetLines r

/-- Concatenate lines, terminating each with a newline. -/
def linesConcat : List String → String
  | [] => ""
  | l :: ls => l ++ "\n" ++ linesConcat ls

/-- Concurrency model: the spec's recording test double. It computes its reply
as a pure function `f` of the call and appends the call to a shared log. -/
def mockStep (f : GenCall → String) (c : GenCall) (log : List GenCall) :
    String × List GenCall :=
  (f c, log ++ [c])

/-- One `explain_word` execution running against the shared-log capability. -/
def explain_word_shared (f : GenCall → String) (r : WordExplanationRequest)
    (log : List GenCall) :
    Except HTTPException WordExplanation × List GenCall :=
  let c := mkCall r
  let step := mockStep f c log
  (.ok { word := r.word, context := r.context, explanation := step.1 }, step.2)

/-- Two concurrent `explain_word` calls: each performs a single atomic capability
call, so an interleaving is fully described by which call reaches the shared
capability first. Returns (result for `r1`, result for `r2`) and the final log. -/
def runTwo (f : GenCall → String) (r1 r2 : WordExplanationRequest)
    (firstIsOne : Bool) :
    (Except HTTPException WordExplanation × Except HTTPException WordExplanation)
      × List GenCall :=
  if firstIsOne then
    let s1 := explain_word_shared f r1 []
    let s2 := explain_word_shared f r2 s1.2
    ((s1.1, s2.1), s2.2)
  else
    let s2 := explain_word_shared f r2 []
    let s1 := explain_word_shared f r1 s2.2
    ((s1.1, s2.1), s1.2)

/-- Python values as they appear in the record dictionaries fed to the Mongo
helpers, parametric in the datetime type `DT`. -/
inductive PyVal (DT : Type) where
  | dt (d : DT)
  | str (s : String)
  | intV (n : Int)
  | listV (xs : List String)
  | noneV
deriving DecidableEq, Repr

/-- Embedding of `prepare_for_mongo` (`server.py` lines 75-80): every value that is a
`datetime` — under any key — is replaced by its `isoformat()` string; all other
values are unchanged. `isoformat` is the Python stdlib serializer, passed in as
a parameter. -/
def prepare_for_mongo {DT : Type} (isoformat : DT → String)
    (data : List (String × PyVal DT)) : List (String × PyVal DT) :=
  data.map fun kv =>
    match kv.2 with
    | .dt d => (kv.1, .str (isoformat d))
    | v => (kv.1, v)

/-- Embedding of `parse_from_mongo` (`server.py` lines 82-90): for every key ending in `_at`
whose value is a string, attempt `datetime.fromisoformat`; a parse failure is
swallowed by the bare `except: pass`, keeping the original string. The fallible
stdlib parser is modelled as an `Option`-returning parameter, so the function is
total: no input makes it fail. -/
def parse_from_mongo {DT : Type} (fromisoformat : String → Option DT)
    (item : List (String × PyVal DT)) : List (String × PyVal DT) :=
  item.map fun kv =>
    match kv.2 with
    | .str s =>
        if strEnds kv.1 "_at" then
          match fromisoformat s with
          | some d => (kv.1, .dt d)
          | none => (kv.1, .str s)
        else (kv.1, .str s)
    | _ => kv

/-- A concrete datetime stand-in for exercising the Mongo helpers: a finite type
with an injective serializer, so the round-trip hypothesis is decidable. -/
def wIso : Bool → String := fun b => if b then "T" else "F"

/-- Concrete parser matching `wIso`, failing on any other string. -/
def wFromIso : String → Option Bool := fun s =>
  if s = "T" then some true else if s = "F" then some false else none

/-- A concrete record dictionary with one `_at` datetime entry, shaped like the
`Poem` documents the helpers process. -/
def wList : List (String × PyVal Bool) :=
  [("created_at", .dt true), ("title", .str "قصيدة")]

/-- Helper: both branches of `explain_word` record exactly the one call `mkCall r`. -/
theorem explain_word_calls (gen : GenCall → Except String String)
    (r : WordExplanationRequest) : (explain_word gen r).2 = [mkCall r] := by
  unfold explain_word
  cases h : gen (mkCall r) <;> simp [h]

/-- C1: whenever `explain_word` succeeds, the returned `WordExplanation`'s
`word` and `context` equal the request's fields verbatim, and `explanation` is
exactly the capability's output — nothing else is derived from it. -/
theorem claim_C1_word_context_verbatim
    (gen : GenCall → Except String String) (r : WordExplanationRequest)
    (w : WordExplanation) (h : (explain_word gen r).1 = .ok w) :
    w.word = r.word ∧ w.context = r.context ∧
      gen (mkCall r) = .ok w.explanation := by
  cases hg : gen (mkCall r) with
  | ok s =>
      simp [explain_word, hg] at h
      simp [← h, hg]
  | error e =>
      simp [explain_word, hg] at h

/-- Witness for C1 at the spec's example request and stub capability. -/
theorem claim_C1_witness :
    ({ word := "العزم", context := "على قدر أهل العزم تأتي العزائم",
       explanation := "STUB:" ++ prompt reqEx } : WordExplanation).word = reqEx.word
    ∧ ({ word := "العزم", context := "على قدر أهل العزم تأتي العزائم",
         explanation := "STUB:" ++ prompt reqEx } : WordExplanation).context = reqEx.context
    ∧ stubGen (mkCall reqEx)
        = .ok ({ word := "العزم", context := "على قدر أهل العزم تأتي العزائم",
                 explanation := "STUB:" ++ prompt reqEx } : WordExplanation).explanation :=
  claim_C1_word_context_verbatim stubGen reqEx
    { word := "العزم", context := "على قدر أهل العزم تأتي العزائم",
      explanation := "STUB:" ++ prompt reqEx } rfl

/-- C2 counterexample: for the request with empty `word`, `explain_word` does
NOT resolve to an InvalidRequest error before calling the capability — the
capability is invoked once (not zero times) and the call succeeds normally,
echoing the empty word. -/
theorem claim_C2_counterexample :
    (explain_word stubGen reqEmptyWord).2.length = 1
    ∧ (explain_word stubGen reqEmptyWord).1
        = .ok { word := "", context := "على قدر أهل العزم تأتي العزائم",
                explanation := "STUB:" ++ prompt reqEmptyWord } :=
  ⟨rfl, rfl⟩

/-- C2 amended: `explain_word` performs no emptiness validation. For a request
with empty `word` or `context` it still builds the prompt and invokes the
capability exactly once; the outcome is the capability's own success (a normal
`WordExplanation` echoing the empty field) or the uniform 500 error — no
InvalidRequest error path exists. -/
theorem claim_C2_amended_no_validation
    (gen : GenCall → Except String String) (r : WordExplanationRequest)
    (_h : r.word = "" ∨ r.context = "") :
    (explain_word gen r).2 = [mkCall r]
    ∧ ((∃ s, gen (mkCall r) = .ok s ∧
          (explain_word gen r).1 = .ok ⟨r.word, r.context, s⟩)
       ∨ (∃ e, gen (mkCall r) = .error e ∧
          (explain_word gen r).1
            = .error ⟨500, "خطأ في شرح الكلمة: " ++ e⟩)) := by
  refine ⟨explain_word_calls gen r, ?_⟩
  cases hg : gen (mkCall r) with
  | ok s => exact .inl ⟨s, rfl, by simp [explain_word, hg]⟩
  | error e => exact .inr ⟨e, rfl, by simp [explain_word, hg]⟩

/-- Witness for the amended C2 at the empty-word request and stub capability. -/
theorem claim_C2_amended_witness :
    (explain_word stubGen reqEmptyWord).2 = [mkCall reqEmptyWord]
    ∧ ((∃ s, stubGen (mkCall reqEmptyWord) = .ok s ∧
          (explain_word stubGen reqEmptyWord).1
            = .ok ⟨reqEmptyWord.word, reqEmptyWord.context, s⟩)
       ∨ (∃ e, stubGen (mkCall reqEmptyWord) = .error e ∧
          (explain_word stubGen reqEmptyWord).1
            = .error ⟨500, "خطأ في شرح الكلمة: " ++ e⟩)) :=
  claim_C2_amended_no_validation stubGen reqEmptyWord (Or.inl rfl)

/-- C3: if the capability fails with any error, `explain_word` resolves to the
single uniform 500 error whose detail carries the cause, and never to a
(partially populated) `WordExplanation`; no capability exception escapes. -/
theorem claim_C3_failure_yields_single_error
    (gen : GenCall → Except String String) (r : WordExplanationRequest)
    (e : String) (h : gen (mkCall r) = .error e) :
    (explain_word gen r).1 = .error ⟨500, "خطأ في شرح الكلمة: " ++ e⟩
    ∧ ∀ w : WordExplanation, (explain_word gen r).1 ≠ .ok w := by
  constructor
  · simp [explain_word, h]
  · intro w
    simp [explain_word, h]

/-- Witness for C3 with a capability that always fails with "timeout". -/
theorem claim_C3_witness :
    (explain_word (fun _ => .error "timeout") reqEx).1
        = .error ⟨500, "خطأ في شرح الكلمة: " ++ "timeout"⟩
    ∧ ∀ w : WordExplanation,
        (explain_word (fun _ => .error "timeout") reqEx).1 ≠ .ok w :=
  claim_C3_failure_yields_single_error (fun _ => .error "timeout") reqEx
    "timeout" rfl

/-- C4: prompt construction is a pure deterministic function of the request —
identical requests yield byte-identical prompts — and the system instruction
accompanying every capability call is the one fixed constant string. -/
theorem claim_C4_prompt_deterministic_fixed_system
    (r1 r2 : WordExplanationRequest) (gen : GenCall → Except String String)
    (r : WordExplanationRequest) (c : GenCall)
    (h : r1 = r2) (hc : c ∈ (explain_word gen r).2) :
    prompt r1 = prompt r2 ∧ c.system_message = system_message := by
  refine ⟨by rw [h], ?_⟩
  rw [explain_word_calls] at hc
  simp at hc
  rw [hc]
  rfl

/-- Witness for C4 at the example request. -/
theorem claim_C4_witness :
    prompt reqEx = prompt reqEx
    ∧ (mkCall reqEx).system_message = system_message :=
  claim_C4_prompt_deterministic_fixed_system reqEx reqEx stubGen reqEx
    (mkCall reqEx) rfl (List.Mem.head _)

/-- C7: every invocation of `explain_word` makes exactly one capability call —
never zero, never more than one. -/
theorem claim_C7_exactly_one_call
    (gen : GenCall → Except String String) (r : WordExplanationRequest) :
    (explain_word gen r).2.length = 1 := by
  rw [explain_word_calls]
  rfl

/-- C8: every capability call made by `explain_word` carries the one fixed
session identity `"poetry_explanation"`, for every request and capability. -/
theorem claim_C8_fixed_session_identity
    (gen : GenCall → Except String String) (r : WordExplanationRequest)
    (c : GenCall) (h : c ∈ (explain_word gen r).2) :
    c.session_id = "poetry_explanation" := by
  rw [explain_word_calls] at h
  simp at h
  rw [h]
  rfl

/-- Witness for C8 at the example request and stub capability. -/
theorem claim_C8_witness : (mkCall reqEx).session_id = "poetry_explanation" :=
  claim_C8_fixed_session_identity stubGen reqEx (mkCall reqEx)
    (List.Mem.head _)

/-- Helper: `linesConcat` distributes over list append. -/
theorem linesConcat_append (xs ys : List String) :
    linesConcat (xs ++ ys) = linesConcat xs ++ linesConcat ys := by
  induction xs with
  | nil => simp [linesConcat]
  | cons l ls ih =>
      simp [linesConcat, ih, String.append_assoc]

/-- Helper: a string starting with a non-empty label is not the empty string. -/
theorem label_line_ne_empty (label rest : String) (h : label.length ≠ 0) :
    label ++ rest ≠ "" := by
  intro he
  apply h
  have hlen := congrArg String.length he
  rw [String.length_append] at hlen
  have h0 : ("" : String).length = 0 := rfl
  omega

/-- C5: the assembled prompt is exactly the fixed header, then the labeled
lines — word, context, then only-if-provided poem title and poet name, each
terminated by a newline — then the fixed instruction/length-constraint tail;
an absent optional field contributes no line at all, and no emitted line is
empty. -/
theorem claim_C5_prompt_line_structure (r : WordExplanationRequest) :
    prompt r = promptHeader ++ linesConcat (promptLines r) ++ promptTail
    ∧ (r.poem_title = none → titleLines r = [])
    ∧ (r.poet_name = none → poetLines r = [])
    ∧ ∀ l ∈ promptLines r, l ≠ "" := by
  refine ⟨?_, ?_, ?_, ?_⟩
  · have hinfo : context_info r = linesConcat (promptLines r) := by
      unfold context_info promptLines titleLines poetLines
      cases r.poem_title with
      | none =>
          cases r.poet_name with
          | none => simp [linesConcat, String.append_assoc]
          | some p =>
              by_cases hp : p = "" <;>
                simp [hp, linesConcat, linesConcat_append, String.append_assoc]
      | some t =>
          cases r.poet_name with
          | none =>
              by_cases ht : t = "" <;>
                simp [ht, linesConcat, linesConcat_append, String.append_assoc]
          | some p =>
              by_cases ht : t = "" <;> by_cases hp : p = "" <;>
                simp [ht, hp, linesConcat, linesConcat_append, String.append_assoc]
    rw [prompt, hinfo]
  · intro h
    simp [titleLines, h]
  · intro h
    simp [poetLines, h]
  · intro l hl
    unfold promptLines at hl
    rcases List.mem_append.1 hl with hl1 | hpo
    · rcases List.mem_append.1 hl1 with hl2 | hti
      · simp at hl2
        rcases hl2 with h | h <;>
          (rw [h]; exact label_line_ne_empty _ _ (by decide))
      · unfold titleLines at hti
        rcases htitle : r.poem_title with _ | t <;> rw [htitle] at hti
        · simp at hti
        · by_cases ht : t = ""
          · simp [ht] at hti
          · simp [ht] at hti
            rw [hti]; exact label_line_ne_empty _ _ (by decide)
    · unfold poetLines at hpo
      rcases hpoet : r.poet_name with _ | p <;> rw [hpoet] at hpo
      · simp at hpo
      · by_cases hp : p = ""
        · simp [hp] at hpo
        · simp [hp] at hpo
          rw [hpo]; exact label_line_ne_empty _ _ (by decide)

/-- Helper: a list is a `charsPrefix` of itself followed by anything. -/
theorem charsPrefix_self_append (pat rest : List Char) :
    charsPrefix pat (pat ++ rest) = true := by
  induction pat with
  | nil => rfl
  | cons a as ih => simp [charsPrefix, ih]

/-- Helper: the empty pattern occurs in every list. -/
theorem charsContain_nil_pat (hay : List Char) : charsContain hay [] = true := by
  cases hay with
  | nil => rfl
  | cons a t => simp [charsContain, charsPrefix]

/-- Helper: a pattern occurs at the head of itself followed by anything. -/
theorem charsContain_self_append (pat rest : List Char) :
    charsContain (pat ++ rest) pat = true := by
  cases pat with
  | nil => exact charsContain_nil_pat rest
  | cons p ps =>
      have h := charsPrefix_self_append (p :: ps) rest
      simp only [List.cons_append, charsContain] at h ⊢
      simp [h]

/-- Helper: occurrence in a list survives prepending anything. -/
theorem charsContain_append_left (s t pat : List Char)
    (h : charsContain t pat = true) : charsContain (s ++ t) pat = true := by
  induction s with
  | nil => simpa using h
  | cons a as ih => simp [charsContain, ih]

/-- C6: for every request, the prompt handed to the capability contains the
request's `word` and `context` as literal substrings; in particular, against
the stub capability echoing `"STUB:" + prompt`, the Arabic example request
yields an explanation starting with `"STUB:"` whose prompt contains `"العزم"`
and `"على قدر أهل العزم تأتي العزائم"`. -/
theorem claim_C6_prompt_contains_word_context :
    (∀ r : WordExplanationRequest,
        strContains (prompt r) r.word = true
        ∧ strContains (prompt r) r.context = true)
    ∧ (explain_word stubGen reqEx).1
        = .ok { word := "العزم", context := "على قدر أهل العزم تأتي العزائم",
                explanation := "STUB:" ++ prompt reqEx }
    ∧ strStarts ("STUB:" ++ prompt reqEx) "STUB:" = true
    ∧ strContains (prompt reqEx) "العزم" = true
    ∧ strContains (prompt reqEx) "على قدر أهل العزم تأتي العزائم" = true := by
  refine ⟨?_, rfl, by decide, by decide, by decide⟩
  intro r
  constructor
  · show charsContain (prompt r).data r.word.data = true
    simp only [prompt, context_info, String.data_append, List.append_assoc]
    exact charsContain_append_left _ _ _
      (charsContain_append_left _ _ _ (charsContain_self_append _ _))
  · show charsContain (prompt r).data r.context.data = true
    simp only [prompt, context_info, String.data_append, List.append_assoc]
    exact charsContain_append_left _ _ _
      (charsContain_append_left _ _ _ (charsContain_append_left _ _ _
        (charsContain_append_left _ _ _ (charsContain_append_left _ _ _
          (charsContain_self_append _ _)))))

/-- C9: two concurrent `explain_word` calls with different requests, run against
the shared recording capability in either interleaving, each receive the
explanation computed from their own request's prompt — never the other's. -/
theorem claim_C9_no_cross_call_interference
    (f : GenCall → String) (r1 r2 : WordExplanationRequest) (b : Bool)
    (_hne : r1 ≠ r2) :
    (runTwo f r1 r2 b).1.1
        = .ok { word := r1.word, context := r1.context,
                explanation := f (mkCall r1) }
    ∧ (runTwo f r1 r2 b).1.2
        = .ok { word := r2.word, context := r2.context,
                explanation := f (mkCall r2) } := by
  cases b <;> exact ⟨rfl, rfl⟩

/-- Witness for C9: the example request and the empty-word request, first
interleaving. -/
theorem claim_C9_witness :
    (runTwo (fun c => "STUB:" ++ c.prompt) reqEx reqEmptyWord true).1.1
        = .ok { word := reqEx.word, context := reqEx.context,
                explanation := "STUB:" ++ (mkCall reqEx).prompt }
    ∧ (runTwo (fun c => "STUB:" ++ c.prompt) reqEx reqEmptyWord true).1.2
        = .ok { word := reqEmptyWord.word, context := reqEmptyWord.context,
                explanation := "STUB:" ++ (mkCall reqEmptyWord).prompt } :=
  claim_C9_no_cross_call_interference (fun c => "STUB:" ++ c.prompt)
    reqEx reqEmptyWord true (by decide)

/-- C10: on a dictionary whose `_at`-keyed values are all datetimes, serializing
with `prepare_for_mongo` and re-reading with `parse_from_mongo` restores every
`_at`-keyed entry to its original datetime, provided the stdlib codec
round-trips (`fromisoformat ∘ isoformat = some`); moreover `parse_from_mongo`
is total — on any dictionary input it returns a same-length dictionary, never
an error (the bare `except: pass` guards its only fallible operation). -/
theorem claim_C10_mongo_roundtrip {DT : Type} (isoformat : DT → String)
    (fromisoformat : String → Option DT)
    (hround : ∀ d, fromisoformat (isoformat d) = some d)
    (l : List (String × PyVal DT))
    (hat : ∀ kv ∈ l, strEnds kv.1 "_at" = true → ∃ d, kv.2 = .dt d) :
    (∀ item : List (String × PyVal DT),
        (parse_from_mongo fromisoformat item).length = item.length)
    ∧ ∀ i k v, l.get? i = some (k, v) → strEnds k "_at" = true →
        (parse_from_mongo fromisoformat (prepare_for_mongo isoformat l)).get? i
          = some (k, v) := by
  constructor
  · intro item
    simp [parse_from_mongo]
  · intro i k v hget hkey
    obtain ⟨d, hv⟩ := hat (k, v) (List.get?_mem hget) hkey
    subst hv
    unfold parse_from_mongo prepare_for_mongo
    rw [List.map_map, List.get?_map, hget]
    simp [Function.comp, hkey, hround]

/-- Witness for C10: a concrete two-entry record with a `created_at` datetime,
using the concrete codec `wIso`/`wFromIso`. -/
theorem claim_C10_witness :
    (parse_from_mongo wFromIso (prepare_for_mongo wIso wList)).get? 0
      = some ("created_at", .dt true) :=
  (claim_C10_mongo_roundtrip wIso wFromIso (by decide) wList (by decide)).2
    0 "created_at" (.dt true) rfl rfl

end PoetryApp
